import Mathlib

/-!
Verification development for the configuration-resolution engine of
`advanced-ssh-config` (package `config`, file `wrapper.go`) and its hook
dispatcher (package `hooks`).

Shallow embedding conventions:
* Go maps (`map[string]*Host`) are association lists `List (String × Host)`;
  lookup takes the first entry with the given key.  Go map iteration order is
  unspecified; the list order plays that role and is fixed by the model.
* Unbounded Go recursion (`computeHost` ↔ `getHostByName`) is embedded with an
  explicit fuel parameter; `none` means the computation is still running when
  the fuel is exhausted, so `∀ fuel, f fuel = none` states non-termination.
* Go errors are `Except String`; a `panic` in the `...Safe` wrappers is the
  `Except.error` case of their result.
* File-system state (known-host file, modification times) is passed explicitly:
  the known-host file is a list of lines stored in the `Config`, and `stat`
  is a function `String → Option Nat` giving each path's modification time.
-/

/-- `Host` record, after §3 of the spec (the Go `Host` struct itself is not in
`src/`; the field set is the one the spec lists and `wrapper.go` uses).
`inherited` is the visited set `map[string]bool` of `computeHost`. -/
structure Host where
  pattern : String := ""
  name : String := ""
  inputName : String := ""
  HostName : String := ""
  User : String := ""
  Aliases : List String := []
  Inherits : List String := []
  Gateways : List String := []
  knownHosts : List String := []
  isTemplate : Bool := false
  isDefault : Bool := false
  inherited : List String := []
deriving Repr, DecidableEq

/-- `Config` record from `wrapper.go`, with the known-host cache file contents
(`knownHostFileLines`) carried in the state so that `SaveNewKnownHost`'s append
is observable. -/
structure Config where
  Hosts : List (String × Host) := []
  Templates : List (String × Host) := []
  Defaults : Host := {}
  Includes : List String := []
  ASSHKnownHostFile : String := ""
  includedFiles : List String := []
  sshConfigPath : String := ""
  knownHostFileLines : List String := []
deriving Repr, DecidableEq

/-- Go map lookup on the association-list model: first entry with the key. -/
def hostsLookup : List (String × Host) → String → Option Host
  | [], _ => none
  | (k, h) :: rest, name => if k = name then some h else hostsLookup rest name

/-- `strings.Split` on a single separator character (total, over `List Char`). -/
def splitChar (sep : Char) : List Char → List (List Char)
  | [] => [[]]
  | c :: cs =>
    let r := splitChar sep cs
    if c = sep then [] :: r
    else
      match r with
      | [] => [[c]]
      | y :: ys => (c :: y) :: ys

/-- `strings.Join` / `strings.Split` companion. -/
def joinWith (sep : String) : List String → String
  | [] => ""
  | [x] => x
  | x :: y :: ys => x ++ sep ++ joinWith sep (y :: ys)

/-- `strings.Split(s, sep)` for a one-character separator, producing `String`s. -/
def goSplit (sep : Char) (s : String) : List String :=
  (splitChar sep s.toList).map String.mk

/-- `strings.Replace(s, pat, rep, -1)` for the two-character patterns `%h`/`%n`
used by `computeHost`: leftmost, non-overlapping replacement. -/
def replaceTok (a b : Char) (rep : List Char) : List Char → List Char
  | [] => []
  | [c] => [c]
  | c :: d :: cs =>
    if c = a && d = b then rep ++ replaceTok a b rep cs
    else c :: replaceTok a b rep (d :: cs)

/-- `strings.Replace` wrapper on `String` for a two-character pattern. -/
def goReplace2 (a b : Char) (rep : String) (s : String) : String :=
  String.mk (replaceTok a b rep.toList s.toList)

/-- One token of a compiled glob pattern. -/
inductive GTok where
  | star
  | qmark
  | lit (c : Char)
  | cls (negated : Bool) (items : List (Char × Char))
deriving Repr, DecidableEq

/-- Modelled from the spec: one class element after its low character —
either a plain character or a `lo-hi` range (with `\` escapes); `none` when
the element is malformed (dangling `-` or `\`, or `-` before `]`). -/
def classStep (lo : Char) (rest : List Char) : Option ((Char × Char) × List Char) :=
  match rest with
  | '-' :: ']' :: _ => none
  | '-' :: '-' :: _ => none
  | '-' :: '\x5c' :: [] => none
  | '-' :: '\x5c' :: hi :: rest2 => some ((lo, hi), rest2)
  | '-' :: [] => none
  | '-' :: hi :: rest2 => some ((lo, hi), rest2)
  | _ => some ((lo, lo), rest)

/-- Modelled from the spec: the pattern matcher's character-class parser
(§4.1, §6 glob syntax `[...]`; the matcher itself is Go's `path.Match`, which
is standard-library code, not in `src/`).  Parses the class body after `[`
(and after an optional `^`), returning the lo/hi ranges and the remainder of
the pattern after `]`, or `none` when the class is malformed (unclosed class,
empty class, dangling `-` or `\`). -/
def parseClassItems : Nat → List Char → List (Char × Char) → Bool → Option (List (Char × Char) × List Char)
  | 0, _, _, _ => none
  | _ + 1, [], _, _ => none
  | _ + 1, ']' :: rest, acc, true => some (acc.reverse, rest)
  | _ + 1, ']' :: _, _, false => none
  | _ + 1, '-' :: _, _, _ => none
  | _ + 1, '\x5c' :: [], _, _ => none
  | fuel + 1, '\x5c' :: lo :: rest, acc, _ =>
    (match classStep lo rest with
     | none => none
     | some (q, rest2) => parseClassItems fuel rest2 (q :: acc) true)
  | fuel + 1, lo :: rest, acc, _ =>
    (match classStep lo rest with
     | none => none
     | some (q, rest2) => parseClassItems fuel rest2 (q :: acc) true)

/-- Modelled from the spec: compile a whole glob pattern to tokens; `none`
means the pattern is syntactically malformed (the matcher's only error case,
§4.1: "Errors only on malformed pattern syntax"). -/
def parsePatternGo : Nat → List Char → Option (List GTok)
  | 0, _ => none
  | _ + 1, [] => some []
  | fuel + 1, '*' :: r => (parsePatternGo fuel r).map (GTok.star :: ·)
  | fuel + 1, '?' :: r => (parsePatternGo fuel r).map (GTok.qmark :: ·)
  | _ + 1, '\x5c' :: [] => none
  | fuel + 1, '\x5c' :: c :: r => (parsePatternGo fuel r).map (GTok.lit c :: ·)
  | fuel + 1, '[' :: '^' :: r =>
    match parseClassItems fuel r [] false with
    | none => none
    | some (items, rest) => (parsePatternGo fuel rest).map (GTok.cls true items :: ·)
  | fuel + 1, '[' :: r =>
    match parseClassItems fuel r [] false with
    | none => none
    | some (items, rest) => (parsePatternGo fuel rest).map (GTok.cls false items :: ·)
  | fuel + 1, c :: r => (parsePatternGo fuel r).map (GTok.lit c :: ·)

/-- Compile a pattern (fuel `length + 1` is always sufficient: every step
consumes at least one character). -/
def parsePattern (p : List Char) : Option (List GTok) :=
  parsePatternGo (p.length + 1) p

/-- Does a character fall in one of the class ranges? -/
def classHit (items : List (Char × Char)) (c : Char) : Bool :=
  items.any (fun q => decide (q.1 ≤ c) && decide (c ≤ q.2))

/-- Modelled from the spec: glob matching of a compiled pattern against a
name (Go `path.Match` semantics: `*` and `?` do not cross `/`; the pattern
must cover the whole name).  Fuelled to stay structurally recursive; fuel
`tokens + name length + 1` is sufficient. -/
def toksMatchF : Nat → List GTok → List Char → Bool
  | 0, _, _ => false
  | _ + 1, [], [] => true
  | _ + 1, [], _ :: _ => false
  | fuel + 1, GTok.star :: p, s =>
    toksMatchF fuel p s ||
      (match s with
       | [] => false
       | c :: s' => (c != '/') && toksMatchF fuel (GTok.star :: p) s')
  | _ + 1, GTok.qmark :: _, [] => false
  | fuel + 1, GTok.qmark :: p, c :: s => (c != '/') && toksMatchF fuel p s
  | _ + 1, GTok.lit _ :: _, [] => false
  | fuel + 1, GTok.lit x :: p, c :: s => (x = c) && toksMatchF fuel p s
  | _ + 1, GTok.cls _ _ :: _, [] => false
  | fuel + 1, GTok.cls neg items :: p, c :: s => (classHit items c != neg) && toksMatchF fuel p s

/-- Modelled from the spec: `matches(pattern, candidate) -> bool, MatchError`
(§4.1).  `none` is the match error, raised exactly when the pattern is
malformed; otherwise the boolean glob verdict. -/
def pathMatch (pattern name : String) : Option Bool :=
  match parsePattern pattern.toList with
  | none => none
  | some toks => some (toksMatchF (toks.length + name.toList.length + 1) toks name.toList)

/-- A pattern is well formed iff the matcher can never error on it. -/
def validPattern (p : String) : Bool :=
  (parsePattern p.toList).isSome

/-- Modelled from the spec: `NewHost` (not in `src/`): a fresh `Host` carrying
the requested name, with `inputName` preserving the exact string the caller
asked to resolve (§3). -/
def NewHost (n : String) : Host :=
  { name := n, inputName := n }

/-- Modelled from the spec: `Host.ApplyDefaults` (not in `src/`): the
zero-value-fill merge of §3/§4.2 — a parent or `Defaults` value fills only
attributes currently at their zero value; a field already set on the more
specific host is never overwritten.  Internal fields (`pattern`, `name`,
`inputName`, `knownHosts`, `inherited`, flags) are not merged. -/
def Host.ApplyDefaults (h defaults : Host) : Host :=
  { h with
    HostName := if h.HostName = "" then defaults.HostName else h.HostName
    User := if h.User = "" then defaults.User else h.User
    Aliases := if h.Aliases = [] then defaults.Aliases else h.Aliases
    Gateways := if h.Gateways = [] then defaults.Gateways else h.Gateways }

/-- Modelled from the spec: `Host.ExpandString` (not in `src/`): generic
placeholder substitution using the host's own attributes (§4.2); `%n` is the
neutral name placeholder produced by `computeHost`. -/
def Host.ExpandString (h : Host) (s : String) : String :=
  goReplace2 '%' 'n' h.name s

/-- `strings.SplitN(path, "/", 2)` from `getHostByPath`. -/
def splitN2 (s : String) : String × Option String :=
  match splitChar '/' s.toList with
  | [] => (s, none)
  | [x] => (String.mk x, none)
  | x :: rest => (String.mk x, some (joinWith "/" (rest.map String.mk)))

/-- Core of `computeHost` (`wrapper.go:186-247`), parameterised by the parent
resolver (which in the source is `config.getHostByPath(name, false, false,
true)`).  Builds the working copy, seeds the visited set with the host's own
name, walks `host.Inherits` in order (skipping revisits, warning and
continuing on a resolution error, merging on success), and, when
`fullCompute`, merges `Defaults`, defaults the empty `HostName` to `name`,
and performs the `%h`/`%n` token expansion with the `inputName` bypass. -/
def computeHostCore (resolveParent : String → Option (Except String Host)) (defaults : Host) (host : Host) (name : String) (fullCompute : Bool) : Option Host :=
  let init : Host := { host with name := name, inherited := [name] }
  let walked : Option Host := host.Inherits.foldl
    (fun acc parent =>
      match acc with
      | none => none
      | some a =>
        if a.inherited.contains parent then some a
        else
          let a1 := { a with inherited := a.inherited ++ [parent] }
          match resolveParent parent with
          | none => none
          | some (Except.error _) => some a1
          | some (Except.ok target) => some (a1.ApplyDefaults target))
    (some init)
  match walked with
  | none => none
  | some ch =>
    if fullCompute then
      let ch1 := ch.ApplyDefaults defaults
      let ch2 := if ch1.HostName = "" then { ch1 with HostName := name } else ch1
      let hostname := goReplace2 '%' 'h' "%n" ch2.HostName
      let pat := goReplace2 '%' 'n' "*" hostname
      some (if (pathMatch pat ch2.inputName).getD false
            then { ch2 with HostName := ch2.inputName }
            else { ch2 with HostName := ch2.ExpandString hostname })
    else some ch

/-- Core of `getHostByPath` (`wrapper.go:291-304`), parameterised by
`getHostByName`: split on the first `/`, resolve the left part, override
`Gateways` with the remainder when present. -/
def getHostByPathCore (byName : String → Bool → Bool → Bool → Option (Except String Host)) (path : String) (safe compute allowTemplate : Bool) : Option (Except String Host) :=
  let parts := splitN2 path
  match byName parts.1 safe compute allowTemplate with
  | none => none
  | some (Except.error e) => some (Except.error e)
  | some (Except.ok h) =>
    some (Except.ok (match parts.2 with
      | none => h
      | some g => { h with Gateways := [g] }))

/-- Outcome of the glob scan loops inside `getHostByName`. -/
inductive ScanOut where
  | diverge
  | found (h : Host)
  | err (e : String)
  | nomatch

/-- Outcome of matching one name against a list of patterns in order
(the inner `for _, pattern := range patterns` loop). -/
inductive PatOut where
  | matched
  | err (e : String)
  | nomatch
deriving Repr, DecidableEq

/-- The inner pattern loop of `getHostByName`: first error or first match
wins, in list order.  The error value is Go's `path.ErrBadPattern`. -/
def patScan : List String → String → PatOut
  | [], _ => PatOut.nomatch
  | p :: rest, name =>
    match pathMatch p name with
    | none => PatOut.err "syntax error in pattern"
    | some true => PatOut.matched
    | some false => patScan rest name

/-- The `for origPattern, host := range c.Hosts` loop of `getHostByName`
(`wrapper.go:255-268`): per host, try the key then each alias; on a match,
compute the host (`cmp`); propagate match errors. -/
def scanHostsCore (cmp : Host → Option Host) : List (String × Host) → String → ScanOut
  | [], _ => ScanOut.nomatch
  | (k, host) :: rest, name =>
    match patScan (k :: host.Aliases) name with
    | PatOut.err e => ScanOut.err e
    | PatOut.matched =>
      (match cmp host with
       | none => ScanOut.diverge
       | some h => ScanOut.found h)
    | PatOut.nomatch => scanHostsCore cmp rest name

/-- The `for pattern, template := range c.Templates` loop of `getHostByName`
(`wrapper.go:271-279`): templates are matched by key only. -/
def scanTemplatesCore (cmp : Host → Option Host) : List (String × Host) → String → ScanOut
  | [], _ => ScanOut.nomatch
  | (k, host) :: rest, name =>
    match patScan [k] name with
    | PatOut.err e => ScanOut.err e
    | PatOut.matched =>
      (match cmp host with
       | none => ScanOut.diverge
       | some h => ScanOut.found h)
    | PatOut.nomatch => scanTemplatesCore cmp rest name

/-- `getHostByName` (`wrapper.go:249-289`), fuelled.  Order: exact key match;
glob scan over host keys and aliases; template scan when `allowTemplate`;
virtual host when `safe`; otherwise the `no such host` error.  Every branch
computes the selected host via `computeHost` with the requested `compute`
flag; the nested `computeHost` resolves parents through `getHostByPath` at
one fuel less. -/
def getHostByName : Nat → Config → String → Bool → Bool → Bool → Option (Except String Host)
  | 0, _, _, _, _, _ => none
  | fuel + 1, cfg, name, safe, compute, allowTemplate =>
    let cmp : Host → Option Host := fun h =>
      computeHostCore
        (fun parent => getHostByPathCore (fun n s c t => getHostByName fuel cfg n s c t) parent false false true)
        cfg.Defaults h name compute
    match hostsLookup cfg.Hosts name with
    | some host => (cmp host).map Except.ok
    | none =>
      match scanHostsCore cmp cfg.Hosts name with
      | ScanOut.diverge => none
      | ScanOut.found h => some (Except.ok h)
      | ScanOut.err e => some (Except.error e)
      | ScanOut.nomatch =>
        match (if allowTemplate then scanTemplatesCore cmp cfg.Templates name else ScanOut.nomatch) with
        | ScanOut.diverge => none
        | ScanOut.found h => some (Except.ok h)
        | ScanOut.err e => some (Except.error e)
        | ScanOut.nomatch =>
          if safe then (cmp { NewHost name with HostName := name }).map Except.ok
          else some (Except.error ("no such host: " ++ name))

/-- `computeHost` (`wrapper.go:186-247`) at a given fuel: the parent resolver
is `getHostByPath(parent, false, false, true)` at the same fuel. -/
def computeHost (fuel : Nat) (host : Host) (cfg : Config) (name : String) (fullCompute : Bool) : Option Host :=
  computeHostCore
    (fun parent => getHostByPathCore (fun n s c t => getHostByName fuel cfg n s c t) parent false false true)
    cfg.Defaults host name fullCompute

/-- `getHostByPath` (`wrapper.go:291-304`) at a given fuel. -/
def getHostByPath (fuel : Nat) (cfg : Config) (path : String) (safe compute allowTemplate : Bool) : Option (Except String Host) :=
  getHostByPathCore (fun n s c t => getHostByName fuel cfg n s c t) path safe compute allowTemplate

/-- `GetHost` (`wrapper.go:316-318`). -/
def GetHost (fuel : Nat) (cfg : Config) (name : String) : Option (Except String Host) :=
  getHostByPath fuel cfg name false true false

/-- `GetHostSafe` (`wrapper.go:320-327`): the `Except.error` case is the
`panic(err)` of the source. -/
def GetHostSafe (fuel : Nat) (cfg : Config) (name : String) : Option (Except String Host) :=
  getHostByPath fuel cfg name true true false

/-- `GetGatewaySafe` (`wrapper.go:306-313`): unlike `GetHostSafe` it resolves
by name (no gateway-path split); the `Except.error` case is the `panic`. -/
def GetGatewaySafe (fuel : Nat) (cfg : Config) (name : String) : Option (Except String Host) :=
  getHostByName fuel cfg name true true false

/-- The alias set built by `needsARebuildForTarget` (`wrapper.go:375-383`):
every alias and every cached known host of every host. -/
def aliasesUnion : List (String × Host) → List String
  | [] => []
  | (_, h) :: rest => h.Aliases ++ h.knownHosts ++ aliasesUnion rest

/-- The pattern list built by `needsARebuildForTarget` (`wrapper.go:385-389`):
every host key and every alias. -/
def allPatterns : List (String × Host) → List String
  | [] => []
  | (k, h) :: rest => k :: (h.Aliases ++ allPatterns rest)

/-- `needsARebuildForTarget` (`wrapper.go:371-415`): split the target on `/`;
a part triggers a rebuild when it is not an exact host key, not a known alias
or cached known host, and matches one of the glob patterns.  Match errors are
skipped (`continue`), not propagated. -/
def needsARebuildForTarget (cfg : Config) (target : String) : Bool :=
  (goSplit '/' target).any
    (fun part =>
      if (hostsLookup cfg.Hosts part).isSome then false
      else if (aliasesUnion cfg.Hosts).contains part then false
      else (allPatterns cfg.Hosts).any (fun p => (pathMatch p part).getD false))

/-- Replace the entry at a key with its `AddKnownHost` update (the in-place
`inst.AddKnownHost(target)` of `addKnownHost`, `wrapper.go:143-148`). -/
def updateKnownHosts : List (String × Host) → String → String → List (String × Host)
  | [], _, _ => []
  | (k, h) :: rest, key, target =>
    if k = key then (k, { h with knownHosts := h.knownHosts ++ [target] }) :: rest
    else (k, h) :: updateKnownHosts rest key target

/-- `addKnownHost` (`wrapper.go:143-148`): resolve the target with
`GetHostSafe` and record it on the host registered under the computed
`pattern`, if that key exists.  The `Except.error` case is the propagated
panic of `GetHostSafe`. -/
def addKnownHost (fuel : Nat) (cfg : Config) (target : String) : Option (Except String Config) :=
  match GetHostSafe fuel cfg target with
  | none => none
  | some (Except.error e) => some (Except.error e)
  | some (Except.ok host) =>
    some (Except.ok
      (if (hostsLookup cfg.Hosts host.pattern).isSome then
        { cfg with Hosts := updateKnownHosts cfg.Hosts host.pattern target }
      else cfg))

/-- `SaveNewKnownHost` (`wrapper.go:124-141`): update the in-memory set, then
append one line to the known-host cache file (file I/O is modelled as
succeeding; in the source an open failure is logged and only skips the
append). -/
def SaveNewKnownHost (fuel : Nat) (cfg : Config) (target : String) : Option (Except String Config) :=
  match addKnownHost fuel cfg target with
  | none => none
  | some (Except.error e) => some (Except.error e)
  | some (Except.ok c1) =>
    some (Except.ok { c1 with knownHostFileLines := c1.knownHostFileLines ++ [target] })

/-- Inner loop of `isSSHConfigOutdated` (`wrapper.go:342-350`): stale when any
loaded source file is newer than the generated output. -/
def anyNewer (mt : String → Option Nat) (outTime : Nat) : List String → Except String Bool
  | [] => Except.ok false
  | f :: rest =>
    match mt f with
    | none => Except.error "stat"
    | some t => if outTime < t then Except.ok true else anyNewer mt outTime rest

/-- `isSSHConfigOutdated` (`wrapper.go:331-352`): compare the output file's
modification time against every loaded source file's. -/
def isSSHConfigOutdated (mt : String → Option Nat) (cfg : Config) : Except String Bool :=
  match mt cfg.sshConfigPath with
  | none => Except.error "stat"
  | some outTime => anyNewer mt outTime cfg.includedFiles

/-- `IsConfigOutdated` (`wrapper.go:354-368`): the dynamic-target trigger
(recording the target on a hit) OR-combined with the source-freshness
trigger.  The pair carries the possibly-updated `Config`. -/
def IsConfigOutdated (fuel : Nat) (mt : String → Option Nat) (cfg : Config) (target : String) : Option (Except String (Bool × Config)) :=
  if needsARebuildForTarget cfg target then
    match SaveNewKnownHost fuel cfg target with
    | none => none
    | some (Except.error e) => some (Except.error e)
    | some (Except.ok cfg') => some (Except.ok (true, cfg'))
  else
    match isSSHConfigOutdated mt cfg with
    | Except.error e => some (Except.error e)
    | Except.ok b => some (Except.ok (b, cfg))

/-- `applyMissingNames` (`wrapper.go:431-450`): stamp each entry's key into
its `pattern`/`name`, mark templates, mark the defaults. -/
def applyMissingNames (cfg : Config) : Config :=
  { cfg with
    Hosts := cfg.Hosts.map (fun kh => (kh.1, { kh.2 with pattern := kh.1, name := kh.1 }))
    Templates := cfg.Templates.map (fun kh => (kh.1, { kh.2 with pattern := kh.1, name := kh.1, isTemplate := true }))
    Defaults := { cfg.Defaults with isDefault := true } }

/-- Modelled from the spec: the version string of the `version` package (not
in `src/`); any fixed string works for the serializer's determinism claims. -/
def VERSION : String := "2.7.0"

/-- Modelled from the spec: `Host.WriteSSHConfigTo` (not in `src/`): render
this host's block (§4.6/§6: one section per host; the exact field layout is
external to the core).  Output is the list of emitted lines. -/
def Host.WriteSSHConfigTo (h : Host) : List String :=
  ["Host " ++ h.name]
    ++ (if h.HostName = "" then [] else ["  HostName " ++ h.HostName])
    ++ (if h.User = "" then [] else ["  User " ++ h.User])
    ++ (if h.Gateways = [] then [] else ["  # Gateways: " ++ joinWith ", " h.Gateways])

/-- The timestamp line of the generated header (`wrapper.go:560-566`, after
the `%BUILD_DATE` substitution). -/
def timestampLine (ts : String) : String :=
  "# on " ++ ts ++ ", based on ~/.ssh/assh.yml"

/-- The four header lines of `WriteSSHConfigTo` (`wrapper.go:559-566`), with
`%VERSION` and `%BUILD_DATE` substituted (the source does both substitutions
with `strings.Replace` on one four-line constant; neither `VERSION` nor a Go
`time.Format` timestamp contains a newline, so the per-line form is
byte-identical). -/
def headerLines (ts : String) : List String :=
  ["# This file was automatically generated by assh v" ++ VERSION,
   timestampLine ts,
   "#",
   "# more info: https://github.com/noqqe/advanced-ssh-config"]

/-- Go's `sort.StringSlice` insert step. -/
def insertSorted (s : String) : List String → List String
  | [] => [s]
  | x :: xs => if s ≤ x then s :: x :: xs else x :: insertSorted s xs

/-- `sort.Sort(names)` of `sortedNames` (`wrapper.go:548-555`): a comparison
sort on strings (modelled as insertion sort; all comparison sorts agree on a
list of strings up to the equalities proved below). -/
def sortStrings : List String → List String
  | [] => []
  | x :: xs => insertSorted x (sortStrings xs)

/-- `sortedNames` (`wrapper.go:548-555`): the host keys, sorted. -/
def sortedNames (cfg : Config) : List String :=
  sortStrings (cfg.Hosts.map Prod.fst)

/-- The per-host loop of `WriteSSHConfigTo` (`wrapper.go:572-580`): for each
name, look the host up, compute it with `fullCompute=false`, emit its block
and a blank line. -/
def renderHosts (fuel : Nat) (cfg : Config) : List String → Option (List String)
  | [] => some []
  | n :: rest =>
    match hostsLookup cfg.Hosts n with
    | none => renderHosts fuel cfg rest
    | some host =>
      match computeHost fuel host cfg n false with
      | none => none
      | some ch => (renderHosts fuel cfg rest).map (fun tail => ch.WriteSSHConfigTo ++ [""] ++ tail)

/-- `Config.WriteSSHConfigTo` (`wrapper.go:558-587`): header, blank line,
host-based section over `sortedNames`, then exactly one global section built
from `Defaults` (whose `name` is set to `*`).  The output is the list of
emitted lines; `none` means a nested `computeHost` ran out of fuel. -/
def WriteSSHConfigTo (fuel : Nat) (cfg : Config) (ts : String) : Option (List String) :=
  match renderHosts fuel cfg (sortedNames cfg) with
  | none => none
  | some blocks =>
    some (headerLines ts ++ [""]
      ++ ["# host-based configuration"] ++ blocks
      ++ ["# global configuration"] ++ Host.WriteSSHConfigTo { cfg.Defaults with name := "*" })

/-- §4.6's own description of the serializer, stated independently: one block
per host sorted by name in lexicographic order (canonical `insertionSort`),
each computed with `fullCompute=false`, followed by exactly one trailing
global fallback block built from `Defaults`. -/
def renderSpec (fuel : Nat) (cfg : Config) (ts : String) : Option (List String) :=
  match renderHosts fuel cfg (List.insertionSort (fun a b : String => a ≤ b) (cfg.Hosts.map Prod.fst)) with
  | none => none
  | some blocks =>
    some (headerLines ts ++ [""]
      ++ ["# host-based configuration"] ++ blocks
      ++ ["# global configuration"] ++ Host.WriteSSHConfigTo { cfg.Defaults with name := "*" })

/-- A hook driver's capability set (`part_000:14-17`).  `run` returns
`some err` on failure; `close` likewise.  The bodies of the three built-in
drivers are external collaborators, so a driver is just its two behaviours. -/
structure HookDriver where
  run : String → Option String
  close : Option String

/-- One observable event of a hook invocation: `New` was called for the
expression at an index, or `Run` was called on the driver at an index.  The
pure embedding records these so that "no driver's run was invoked" is
statable. -/
inductive HookEvent where
  | inst (i : Nat)
  | run (i : Nat)
deriving Repr, DecidableEq

/-- The three built-in driver constructors (`NewWriteDriver`,
`NewExecDriver`, `NewDaemonDriver`), whose bodies are not in `src/`: the
dispatcher is verified for every choice of them. -/
structure DriverImpls where
  write : String → Except String HookDriver
  exec : String → Except String HookDriver
  daemon : String → Except String HookDriver

namespace Hooks

/-- `hooks.New` (`part_000:57-73`): split the expression on spaces, dispatch
on the first word, join the rest as the parameter; unknown kinds are a hard
error. -/
def New (impls : DriverImpls) (expr : String) : Except String HookDriver :=
  let parts := goSplit ' ' expr
  let driverName := parts.headD ""
  let param := joinWith " " parts.tail
  match driverName with
  | "write" => impls.write param
  | "exec" => impls.exec param
  | "daemon" => impls.daemon param
  | _ => Except.error ("No such driver \x22" ++ driverName ++ "\x22")

/-- Phase 1 of `InvokeAll` (`part_000:29-35`): instantiate one driver per
expression in order; the first failure aborts with that error.  Returns the
drivers (or the error) and the instantiation events. -/
def instantiateAll (impls : DriverImpls) : List String → Nat → Except String (List HookDriver) × List HookEvent
  | [], _ => (Except.ok [], [])
  | expr :: rest, i =>
    match New impls expr with
    | Except.error e => (Except.error e, [HookEvent.inst i])
    | Except.ok d =>
      let r := instantiateAll impls rest (i + 1)
      (r.1.map (d :: ·), HookEvent.inst i :: r.2)

/-- Phase 2 of `InvokeAll` (`part_000:37-41`): run each driver in order; the
first failure aborts with that error.  Returns the error (if any) and the run
events. -/
def runAll : List HookDriver → String → Nat → Option String × List HookEvent
  | [], _, _ => (none, [])
  | d :: rest, args, i =>
    match d.run args with
    | some e => (some e, [HookEvent.run i])
    | none =>
      let r := runAll rest args (i + 1)
      (r.1, HookEvent.run i :: r.2)

/-- `Hooks.InvokeAll` (`part_000:26-43`): instantiate everything, then run
everything; on any failure the function returns `nil, err` — in particular a
run failure discards the already-instantiated drivers. -/
def InvokeAll (impls : DriverImpls) (hooks : List String) (args : String) : Except String (List HookDriver) × List HookEvent :=
  match instantiateAll impls hooks 0 with
  | (Except.error e, tr) => (Except.error e, tr)
  | (Except.ok drivers, tr1) =>
    match runAll drivers args 0 with
    | (some e, tr2) => (Except.error e, tr1 ++ tr2)
    | (none, tr2) => (Except.ok drivers, tr1 ++ tr2)

/-- `HookDrivers.Close` (`part_000:46-54`): close every driver, collecting
every failure (never stopping at the first). -/
def Close : List HookDriver → List String
  | [] => []
  | d :: rest =>
    match d.close with
    | some e => e :: Close rest
    | none => Close rest

/-- The error of the first hook expression whose instantiation fails, if
any. -/
def firstInstFailure (impls : DriverImpls) : List String → Option String
  | [] => none
  | expr :: rest =>
    match New impls expr with
    | Except.error e => some e
    | Except.ok _ => firstInstFailure impls rest

end Hooks

/-- Stage 2 of the spec's resolution order (§4.2): the first host whose key
or alias glob-matches the name, with match errors propagated. -/
def firstGlobHost : List (String × Host) → String → Except String (Option Host)
  | [], _ => Except.ok none
  | (k, h) :: rest, name =>
    match patScan (k :: h.Aliases) name with
    | PatOut.err e => Except.error e
    | PatOut.matched => Except.ok (some h)
    | PatOut.nomatch => firstGlobHost rest name

/-- Stage 3 of the spec's resolution order (§4.2): the first template whose
key glob-matches the name. -/
def firstTemplate : List (String × Host) → String → Except String (Option Host)
  | [], _ => Except.ok none
  | (k, h) :: rest, name =>
    match patScan [k] name with
    | PatOut.err e => Except.error e
    | PatOut.matched => Except.ok (some h)
    | PatOut.nomatch => firstTemplate rest name

/-! ### Concrete configurations used by the claim theorems -/

/-- C1 cycle: host `a` inherits `b`. -/
def c1HostA : Host := { pattern := "a", name := "a", Inherits := ["b"] }

/-- C1 cycle: host `b` inherits `a`. -/
def c1HostB : Host := { pattern := "b", name := "b", Inherits := ["a"] }

/-- Config with the mutual inheritance cycle `a ↔ b`. -/
def c1Config : Config := { Hosts := [("a", c1HostA), ("b", c1HostB)] }

/-- C2 chain: `a` inherits `b`. -/
def c2HostA : Host := { pattern := "a", name := "a", Inherits := ["b"] }

/-- C2 chain: `b` inherits `c` and sets nothing itself. -/
def c2HostB : Host := { pattern := "b", name := "b", Inherits := ["c"] }

/-- C2 chain: grandparent `c` with a directly-set `HostName`. -/
def c2HostC : Host := { pattern := "c", name := "c", HostName := "ch" }

/-- Config with the three-level chain `a → b → c`. -/
def c2Config : Config := { Hosts := [("a", c2HostA), ("b", c2HostB), ("c", c2HostC)] }

/-- C4: a single dynamic pattern `web*`. -/
def c4Host : Host := { pattern := "web*", name := "web*" }

/-- C4 config: one glob host, one loaded source file, an output path. -/
def c4Config : Config :=
  { Hosts := [("web*", c4Host)], includedFiles := ["assh.yml"], sshConfigPath := "sshconfig" }

/-- C4 modification times: every file has the same mtime, so the
source-freshness trigger is off. -/
def c4mt : String → Option Nat := fun _ => some 5

/-- The host `GetHostSafe` computes for `web1` against `c4Config`. -/
def c4Computed : Host :=
  { pattern := "web*", name := "web1", HostName := "web1", inherited := ["web1"] }

/-- A hook driver whose `run` and `close` always succeed. -/
def okHookDriver : HookDriver := { run := fun _ => none, close := none }

/-- A hook driver whose `run` always fails. -/
def failRunDriver : HookDriver := { run := fun _ => some "exec failed", close := none }

/-- C5 driver constructors: `write`/`daemon` drivers run fine, the `exec`
driver's `run` fails. -/
def c5Impls : DriverImpls :=
  { write := fun _ => Except.ok okHookDriver
    exec := fun _ => Except.ok failRunDriver
    daemon := fun _ => Except.ok okHookDriver }

/-- C6 driver constructors: every known kind instantiates fine. -/
def c6Impls : DriverImpls :=
  { write := fun _ => Except.ok okHookDriver
    exec := fun _ => Except.ok okHookDriver
    daemon := fun _ => Except.ok okHookDriver }

/-- C9/C10: a config whose only host key is the malformed pattern `[`. -/
def c9Config : Config := { Hosts := [("[", { pattern := "[", name := "[" })] }

/-- C9: the malformed pattern sits among the aliases. -/
def c9AliasConfig : Config :=
  { Hosts := [("zz", { pattern := "zz", name := "zz", Aliases := ["["] })] }

/-- C9: the malformed pattern is a template key. -/
def c9TemplateConfig : Config :=
  { Templates := [("[", { pattern := "[", name := "[", isTemplate := true })] }

/-- C10: a host whose key `a*` matches before its malformed alias `[` is
reached. -/
def c10Host : Host := { pattern := "a*", name := "a*", Aliases := ["["] }

/-- C10 config containing a malformed glob among the aliases. -/
def c10Config : Config := { Hosts := [("a*", c10Host)] }

/-- The host `GetHostSafe` returns for `ab` against `c10Config`. -/
def c10ComputedHost : Host :=
  { pattern := "a*", name := "ab", HostName := "ab", Aliases := ["["], inherited := ["ab"] }

/-! ### Theorems -/

/-- C2 counterexample: the claim says resolving `a` (whose parent `b` declares
grandparent `c`) must not expand `c`'s attributes into `a` — since neither `a`
nor `b` sets `HostName`, the resolved `a` should keep `HostName = ""`.  The
code resolves the parent recursively (the nested `computeHost` walks `b`'s own
`Inherits`), so `c`'s `HostName` reaches `a`. -/
theorem c2_counterexample :
    c2HostA.HostName = "" ∧ c2HostB.HostName = "" ∧
    (computeHost 5 c2HostA c2Config "a" false).map Host.HostName = some "ch" := by
  refine ⟨rfl, rfl, ?_⟩
  rfl

/-- C2 amended: inheritance is resolved recursively, one fully-computed parent
at a time: resolving a host first computes each parent (walking the parent's
own `Inherits` with a fresh visited set) and then merges the computed parent,
so a grandparent's directly-set fields do propagate — in the chain
`a → b → c`, `c`'s `HostName` appears both on the computed `b` and on the
computed `a`. -/
theorem c2_amended_transitive :
    (computeHost 5 c2HostB c2Config "b" false).map Host.HostName = some "ch" ∧
    (computeHost 5 c2HostA c2Config "a" false).map Host.HostName = some "ch" := by
  exact ⟨rfl, rfl⟩

/-- C5: when both hooks instantiate and the second driver's `run` fails,
`InvokeAll` returns the run error with NO drivers (`nil` in the source), even
though both drivers were instantiated and the first one's `run` already
executed — so the close-all path has nothing to close and the
already-instantiated drivers' resources cannot be released, contradicting the
spec's requirement (§4.7.3/§7 DriverRun). -/
theorem c5_run_failure_drops_drivers :
    (Hooks.InvokeAll c5Impls ["write /tmp/x", "exec boom"] "args").1
        = Except.error "exec failed" ∧
    (Hooks.InvokeAll c5Impls ["write /tmp/x", "exec boom"] "args").2
        = [HookEvent.inst 0, HookEvent.inst 1, HookEvent.run 0, HookEvent.run 1] := by
  exact ⟨rfl, rfl⟩

/-- C9 counterexample: the staleness detector's dynamic-target check does not
propagate match errors.  With the malformed pattern `[` as the only host key,
the matcher errors on it (`pathMatch = none`), and `getHostByName` propagates
that error — but `needsARebuildForTarget` silently skips the malformed
pattern (`continue` in the source) and returns the plain boolean `false`; its
`bool` result type has no error channel at all. -/
theorem c9_counterexample :
    pathMatch "[" "x" = none ∧
    getHostByName 5 c9Config "x" false true false
        = some (Except.error "syntax error in pattern") ∧
    needsARebuildForTarget c9Config "x" = false := by
  exact ⟨rfl, rfl, rfl⟩

/-- C10 counterexample: the claim says `GetHostSafe` panics for ANY config
containing a malformed glob among its host keys or aliases when the requested
name is not an exact host key.  Here the key `a*` matches `ab` before the
malformed alias `[` is reached, so the lookup succeeds and `GetHostSafe`
returns normally — no panic. -/
theorem c10_counterexample :
    validPattern "[" = false ∧
    c10Host.Aliases = ["["] ∧
    hostsLookup c10Config.Hosts "ab" = none ∧
    GetHostSafe 5 c10Config "ab" = some (Except.ok c10ComputedHost) := by
  exact ⟨rfl, rfl, rfl, rfl⟩

/-- C10 amended: `GetHostSafe` and `GetGatewaySafe` panic (`Except.error`
here) whenever the underlying lookup yields an error; for a malformed glob
this happens when the scan reaches the malformed key or alias before any
pattern has matched — e.g. when the config's only host key is the malformed
`[` and the requested name is not an exact key — not for every config merely
containing a malformed pattern. -/
theorem c10_amended_panic_on_error :
    hostsLookup c9Config.Hosts "x" = none ∧
    GetHostSafe 5 c9Config "x" = some (Except.error "syntax error in pattern") ∧
    GetGatewaySafe 5 c9Config "x" = some (Except.error "syntax error in pattern") := by
  exact ⟨rfl, rfl, rfl⟩
/-- A host whose single declared parent resolves to divergence makes
`computeHostCore` diverge: the inheritance walk propagates the pending
recursion. -/
lemma computeHostCore_one_parent_diverge (r : String → Option (Except String Host))
    (d host : Host) (name p : String) (full : Bool)
    (hinh : host.Inherits = [p]) (hne : p ≠ name)
    (hr : r p = none) :
    computeHostCore r d host name full = none := by
  unfold computeHostCore
  rw [hinh]
  simp only [List.foldl]
  simp [hne, hr]

/-- Resolving the parent `b` of `c1Config` at fuel `n+1` is one full
`computeHost` of `b` at fuel `n`. -/
lemma c1_resolveB (n : Nat) :
    getHostByPath (n + 1) c1Config "b" false false true
      = (computeHost n c1HostB c1Config "b" false).map Except.ok := by
  cases h : computeHost n c1HostB c1Config "b" false <;>
    simp [getHostByPath, getHostByPathCore, splitN2, splitChar, getHostByName,
      hostsLookup, c1Config, computeHost] at h ⊢ <;>
    simp [h]

/-- Resolving the parent `a` of `c1Config` at fuel `n+1` is one full
`computeHost` of `a` at fuel `n`. -/
lemma c1_resolveA (n : Nat) :
    getHostByPath (n + 1) c1Config "a" false false true
      = (computeHost n c1HostA c1Config "a" false).map Except.ok := by
  cases h : computeHost n c1HostA c1Config "a" false <;>
    simp [getHostByPath, getHostByPathCore, splitN2, splitChar, getHostByName,
      hostsLookup, c1Config, computeHost] at h ⊢ <;>
    simp [h]

/-- Mutual-cycle divergence, both directions, by induction on the fuel. -/
lemma c1_both (n : Nat) :
    computeHost n c1HostA c1Config "a" false = none ∧
    computeHost n c1HostB c1Config "b" false = none := by
  induction n with
  | zero => exact ⟨rfl, rfl⟩
  | succ n ih =>
    constructor
    · apply computeHostCore_one_parent_diverge _ _ _ _ "b" _ rfl (by decide)
      show getHostByPath (n + 1) c1Config "b" false false true = none
      rw [c1_resolveB n, ih.2]
      rfl
    · apply computeHostCore_one_parent_diverge _ _ _ _ "a" _ rfl (by decide)
      show getHostByPath (n + 1) c1Config "a" false false true = none
      rw [c1_resolveA n, ih.1]
      rfl

/-- C1: the claim (and spec §8 "Cycle termination") says that with `a`
inheriting `b` and `b` inheriting `a`, resolving `a` terminates with `b`'s
merge applied exactly once, the visited set guarding the walk.  The code
seeds a FRESH visited set `{name}` on every `computeHost` call, so the nested
resolution of `b` resolves `a` again with a new visited set, and so on:
resolution never terminates (`none` at every fuel).  The visited set only
guards direct self-reference and duplicates within one `Inherits` list. -/
theorem c1_cycle_diverges : ∀ fuel, computeHost fuel c1HostA c1Config "a" true = none := by
  intro fuel
  cases fuel with
  | zero => rfl
  | succ n =>
    apply computeHostCore_one_parent_diverge _ _ _ _ "b" _ rfl (by decide)
    show getHostByPath (n + 1) c1Config "b" false false true = none
    rw [c1_resolveB n, (c1_both n).2]
    rfl
/-- The source's host-scan loop equals the spec's "first glob match wins"
description, for any computation `cmp` of the matched host. -/
lemma scanHostsCore_eq_firstGlobHost (cmp : Host → Option Host)
    (l : List (String × Host)) (name : String) :
    scanHostsCore cmp l name =
      match firstGlobHost l name with
      | Except.error e => ScanOut.err e
      | Except.ok none => ScanOut.nomatch
      | Except.ok (some h) =>
        match cmp h with
        | none => ScanOut.diverge
        | some ch => ScanOut.found ch := by
  induction l with
  | nil => rfl
  | cons kh rest ih =>
    obtain ⟨k, h⟩ := kh
    simp only [scanHostsCore, firstGlobHost]
    cases patScan (k :: h.Aliases) name <;> simp [ih]

/-- The source's template-scan loop equals the spec's "first glob match wins"
description over `Templates`. -/
lemma scanTemplatesCore_eq_firstTemplate (cmp : Host → Option Host)
    (l : List (String × Host)) (name : String) :
    scanTemplatesCore cmp l name =
      match firstTemplate l name with
      | Except.error e => ScanOut.err e
      | Except.ok none => ScanOut.nomatch
      | Except.ok (some h) =>
        match cmp h with
        | none => ScanOut.diverge
        | some ch => ScanOut.found ch := by
  induction l with
  | nil => rfl
  | cons kh rest ih =>
    obtain ⟨k, h⟩ := kh
    simp only [scanTemplatesCore, firstTemplate]
    cases patScan [k] name <;> simp [ih]

/-- C3: resolution of a bare name follows the spec's five stages and stops at
the first success: exact key match; first glob match over host keys and
aliases; first glob match over templates when allowed; a synthesized virtual
host with `HostName = name` when allowed; otherwise the not-found error.
Match errors abort the stage that encounters them. -/
theorem c3_resolution_order (fuel : Nat) (cfg : Config) (name : String)
    (safe compute allowTemplate : Bool) :
    getHostByName (fuel + 1) cfg name safe compute allowTemplate =
      match hostsLookup cfg.Hosts name with
      | some host => (computeHost fuel host cfg name compute).map Except.ok
      | none =>
        match firstGlobHost cfg.Hosts name with
        | Except.error e => some (Except.error e)
        | Except.ok (some host) => (computeHost fuel host cfg name compute).map Except.ok
        | Except.ok none =>
          match (if allowTemplate then firstTemplate cfg.Templates name else Except.ok none) with
          | Except.error e => some (Except.error e)
          | Except.ok (some tpl) => (computeHost fuel tpl cfg name compute).map Except.ok
          | Except.ok none =>
            if safe then
              (computeHost fuel { NewHost name with HostName := name } cfg name compute).map Except.ok
            else some (Except.error ("no such host: " ++ name)) := by
  simp only [getHostByName]
  cases h1 : hostsLookup cfg.Hosts name with
  | some host => simp [computeHost]
  | none =>
    simp only []
    rw [scanHostsCore_eq_firstGlobHost]
    cases h2 : firstGlobHost cfg.Hosts name with
    | error e => simp
    | ok oh =>
      cases oh with
      | some host =>
        cases h3 : computeHost fuel host cfg name compute <;>
          simp [computeHost] at h3 ⊢ <;> simp [h3]
      | none =>
        simp only []
        by_cases ht : allowTemplate
        · simp only [ht, if_true]
          rw [scanTemplatesCore_eq_firstTemplate]
          cases h4 : firstTemplate cfg.Templates name with
          | error e => simp
          | ok ot =>
            cases ot with
            | some tpl =>
              cases h5 : computeHost fuel tpl cfg name compute <;>
                simp [computeHost] at h5 ⊢ <;> simp [h5]
            | none =>
              by_cases hs : safe <;> simp [hs, computeHost]
        · simp only [ht, if_false]
          by_cases hs : safe <;> simp [hs, computeHost]
/-- `updateKnownHosts` preserves lookup misses (it only changes values, never
keys). -/
lemma hostsLookup_updateKnownHosts_none (l : List (String × Host)) (key t name : String)
    (h : hostsLookup l name = none) :
    hostsLookup (updateKnownHosts l key t) name = none := by
  induction l with
  | nil => rfl
  | cons kh rest ih =>
    obtain ⟨k, hh⟩ := kh
    simp only [hostsLookup] at h
    by_cases hk : k = name
    · simp [hk] at h
    · have htail : hostsLookup rest name = none := by simpa [hk] using h
      simp only [updateKnownHosts]
      by_cases hkey : k = key
      · subst hkey
        simp [hostsLookup, hk, htail]
      · simp [hostsLookup, hk, htail, hkey, ih htail]

/-- After recording `t` on the host registered under `key`, `t` is in the
alias/known-host union. -/
lemma contains_aliasesUnion_update (l : List (String × Host)) (key t : String)
    (h : (hostsLookup l key).isSome = true) :
    (aliasesUnion (updateKnownHosts l key t)).contains t = true := by
  induction l with
  | nil => simp [hostsLookup] at h
  | cons kh rest ih =>
    obtain ⟨k, hh⟩ := kh
    by_cases hkey : k = key
    · simp [updateKnownHosts, hkey, aliasesUnion, List.contains, List.elem_eq_mem]
    · simp only [hostsLookup, hkey, if_false] at h
      simp only [updateKnownHosts, hkey, if_false, aliasesUnion, List.contains,
        List.elem_eq_mem, decide_eq_true_eq, List.mem_append] at ih ⊢
      tauto
/-- C4: for a literal target that is neither an exact host key, nor a known
alias or cached known host, but matches some host/alias glob pattern, the
first `IsConfigOutdated` call reports stale and records the literal into the
cache (in-memory set and cache file), and an immediately repeated call on the
identical literal, with unchanged source modification times, reports
not-stale.  `h0` is the host computed by `GetHostSafe` during recording
(hypothesis `hsafe` states that the safe lookup terminates without panicking
at the given fuel; `hkey` is the `applyMissingNames` invariant that the
computed `pattern` is a registered key). -/
theorem c4_known_host_gating (fuel : Nat) (mt : String → Option Nat)
    (cfg : Config) (target : String) (h0 : Host)
    (hsplit : goSplit '/' target = [target])
    (hexact : hostsLookup cfg.Hosts target = none)
    (halias : (aliasesUnion cfg.Hosts).contains target = false)
    (hpat : (allPatterns cfg.Hosts).any (fun p => (pathMatch p target).getD false) = true)
    (hsafe : GetHostSafe fuel cfg target = some (Except.ok h0))
    (hkey : (hostsLookup cfg.Hosts h0.pattern).isSome = true)
    (hfresh : isSSHConfigOutdated mt cfg = Except.ok false) :
    ∃ cfg',
      IsConfigOutdated fuel mt cfg target = some (Except.ok (true, cfg')) ∧
      (aliasesUnion cfg'.Hosts).contains target = true ∧
      cfg'.knownHostFileLines = cfg.knownHostFileLines ++ [target] ∧
      IsConfigOutdated fuel mt cfg' target = some (Except.ok (false, cfg')) := by
  have halias2 : target ∉ aliasesUnion cfg.Hosts := by
    simpa [List.contains, List.elem_eq_mem] using halias
  have hneeds : needsARebuildForTarget cfg target = true := by
    simp [needsARebuildForTarget, hsplit, hexact, halias2, hpat]
  refine ⟨{ cfg with Hosts := updateKnownHosts cfg.Hosts h0.pattern target, knownHostFileLines := cfg.knownHostFileLines ++ [target] }, ?_, contains_aliasesUnion_update _ _ _ hkey, rfl, ?_⟩
  · simp [IsConfigOutdated, hneeds, SaveNewKnownHost, addKnownHost, hsafe, hkey]
  · have hexact' : hostsLookup (updateKnownHosts cfg.Hosts h0.pattern target) target = none :=
      hostsLookup_updateKnownHosts_none _ _ _ _ hexact
    have halias2' : target ∈ aliasesUnion (updateKnownHosts cfg.Hosts h0.pattern target) := by
      simpa [List.contains, List.elem_eq_mem] using
        contains_aliasesUnion_update cfg.Hosts h0.pattern target hkey
    have hneeds' : needsARebuildForTarget { cfg with Hosts := updateKnownHosts cfg.Hosts h0.pattern target, knownHostFileLines := cfg.knownHostFileLines ++ [target] } target = false := by
      simp [needsARebuildForTarget, hsplit, hexact', halias2']
    have hfresh' : isSSHConfigOutdated mt { cfg with Hosts := updateKnownHosts cfg.Hosts h0.pattern target, knownHostFileLines := cfg.knownHostFileLines ++ [target] } = Except.ok false := hfresh
    simp [IsConfigOutdated, hneeds', hfresh']

/-- C4 witness: the scenario instantiated at `web*`/`web1` with equal
modification times everywhere. -/
theorem c4_known_host_gating_witness :
    ∃ cfg',
      IsConfigOutdated 3 c4mt c4Config "web1" = some (Except.ok (true, cfg')) ∧
      (aliasesUnion cfg'.Hosts).contains "web1" = true ∧
      cfg'.knownHostFileLines = c4Config.knownHostFileLines ++ ["web1"] ∧
      IsConfigOutdated 3 c4mt cfg' "web1" = some (Except.ok (false, cfg')) :=
  c4_known_host_gating 3 c4mt c4Config "web1" c4Computed rfl rfl rfl rfl rfl rfl rfl
/-- When some expression fails to instantiate, phase 1 stops at the first
failure: it returns that error, and its trace holds only instantiation
events. -/
lemma instantiateAll_of_firstFailure (impls : DriverImpls) :
    ∀ (hooks : List String) (i : Nat) (e : String),
      Hooks.firstInstFailure impls hooks = some e →
      ∃ tr, Hooks.instantiateAll impls hooks i = (Except.error e, tr) ∧
        ∀ ev ∈ tr, ∃ j, ev = HookEvent.inst j := by
  intro hooks
  induction hooks with
  | nil => intro i e h; simp [Hooks.firstInstFailure] at h
  | cons expr rest ih =>
    intro i e h
    simp only [Hooks.firstInstFailure] at h
    cases hn : Hooks.New impls expr with
    | error e' =>
      rw [hn] at h
      obtain rfl : e' = e := by simpa using h
      refine ⟨[HookEvent.inst i], by simp [Hooks.instantiateAll, hn], ?_⟩
      intro ev hev
      simp at hev
      exact ⟨i, hev⟩
    | ok d =>
      rw [hn] at h
      obtain ⟨tr, htr, hall⟩ := ih (i + 1) e h
      refine ⟨HookEvent.inst i :: tr, by simp [Hooks.instantiateAll, hn, htr, Except.map], ?_⟩
      intro ev hev
      rcases List.mem_cons.mp hev with hev | hev
      · exact ⟨i, hev⟩
      · exact hall ev hev

/-- C6: if any hook expression fails to instantiate (unknown driver kind or a
failing constructor), `InvokeAll` returns the first instantiation error and
no driver's `run` is ever invoked — the trace holds no run events at all,
including for drivers from earlier expressions that instantiated fine. -/
theorem c6_fail_fast (impls : DriverImpls) (hooks : List String) (args e : String)
    (h : Hooks.firstInstFailure impls hooks = some e) :
    (Hooks.InvokeAll impls hooks args).1 = Except.error e ∧
    ∀ i, HookEvent.run i ∉ (Hooks.InvokeAll impls hooks args).2 := by
  obtain ⟨tr, htr, hall⟩ := instantiateAll_of_firstFailure impls hooks 0 e h
  constructor
  · simp [Hooks.InvokeAll, htr]
  · intro i hmem
    simp only [Hooks.InvokeAll, htr] at hmem
    obtain ⟨j, hj⟩ := hall _ hmem
    cases hj

/-- C6 witness: the spec's own example `["write /tmp/x", "unknownkind foo"]`
— the second expression's kind is unknown, so the whole call fails with that
error and no run event occurs (not even for the first, well-formed hook). -/
theorem c6_fail_fast_witness :
    Hooks.firstInstFailure c6Impls ["write /tmp/x", "unknownkind foo"]
        = some "No such driver \"unknownkind\"" ∧
    ((Hooks.InvokeAll c6Impls ["write /tmp/x", "unknownkind foo"] "args").1
        = Except.error "No such driver \"unknownkind\"" ∧
      ∀ i, HookEvent.run i ∉ (Hooks.InvokeAll c6Impls ["write /tmp/x", "unknownkind foo"] "args").2) :=
  ⟨rfl, c6_fail_fast c6Impls ["write /tmp/x", "unknownkind foo"] "args" _ rfl⟩
/-- Inserting into the sort keeps the list a permutation. -/
lemma insertSorted_perm (s : String) (l : List String) :
    (insertSorted s l).Perm (s :: l) := by
  induction l with
  | nil => simp [insertSorted]
  | cons x xs ih =>
    simp only [insertSorted]
    by_cases h : s ≤ x
    · simp [h]
    · simp only [h, if_false]
      exact (ih.cons x).trans (List.Perm.swap s x xs)

/-- Inserting into a sorted list keeps it sorted. -/
lemma insertSorted_sorted (s : String) (l : List String) (h : l.Sorted (· ≤ ·)) :
    (insertSorted s l).Sorted (· ≤ ·) := by
  induction l with
  | nil => simp [insertSorted]
  | cons x xs ih =>
    rcases List.sorted_cons.mp h with ⟨hx, hxs⟩
    simp only [insertSorted]
    by_cases hs : s ≤ x
    · simp only [hs, if_true]
      refine List.sorted_cons.mpr ⟨?_, h⟩
      intro b hb
      rcases List.mem_cons.mp hb with rfl | hb
      · exact hs
      · exact le_trans hs (hx b hb)
    · simp only [hs, if_false]
      refine List.sorted_cons.mpr ⟨?_, ih hxs⟩
      intro b hb
      rcases List.mem_cons.mp ((insertSorted_perm s xs).mem_iff.mp hb) with rfl | hb'
      · exact le_of_not_le hs
      · exact hx b hb'

/-- `sortStrings` permutes its input. -/
lemma sortStrings_perm (l : List String) : (sortStrings l).Perm l := by
  induction l with
  | nil => rfl
  | cons x xs ih =>
    simp only [sortStrings]
    exact (insertSorted_perm x (sortStrings xs)).trans (ih.cons x)

/-- `sortStrings` sorts. -/
lemma sortStrings_sorted (l : List String) : (sortStrings l).Sorted (· ≤ ·) := by
  induction l with
  | nil => simp [sortStrings]
  | cons x xs ih => exact insertSorted_sorted x (sortStrings xs) ih

/-- The model of Go's `sort.Sort` agrees with the canonical insertion sort:
any two sorts of the same string list coincide. -/
lemma sortStrings_eq_insertionSort (l : List String) :
    sortStrings l = List.insertionSort (fun a b : String => a ≤ b) l :=
  List.eq_of_perm_of_sorted
    ((sortStrings_perm l).trans (List.perm_insertionSort _ l).symm)
    (sortStrings_sorted l) (List.sorted_insertionSort _ l)

/-- C7: the serializer emits one block per host in lexicographic order of the
host names/patterns — `sortedNames` is sorted and is a permutation of the
mapping's keys, never the arbitrary mapping order — each block computed with
`fullCompute=false` (`renderHosts` passes `false` to `computeHost`), followed
by exactly one trailing global fallback block built from `Defaults`; this is
the staged `renderSpec` form taken verbatim from §4.6. -/
theorem c7_serializer_sorted_blocks (fuel : Nat) (cfg : Config) (ts : String) :
    WriteSSHConfigTo fuel cfg ts = renderSpec fuel cfg ts ∧
    (sortedNames cfg).Sorted (· ≤ ·) ∧
    (sortedNames cfg).Perm (cfg.Hosts.map Prod.fst) := by
  refine ⟨?_, sortStrings_sorted _, sortStrings_perm _⟩
  unfold WriteSSHConfigTo renderSpec sortedNames
  rw [sortStrings_eq_insertionSort]

/-- C8: the serializer is deterministic given the model and the clock —
rendering the same unchanged `Config` at two timestamps yields exactly the
same lines except the timestamp line (line index 1 of the header). -/
theorem c8_render_deterministic (fuel : Nat) (cfg : Config) (ts1 ts2 : String) :
    WriteSSHConfigTo fuel cfg ts2
      = (WriteSSHConfigTo fuel cfg ts1).map (fun ls => ls.set 1 (timestampLine ts2)) := by
  unfold WriteSSHConfigTo
  cases h : renderHosts fuel cfg (sortedNames cfg) with
  | none => rfl
  | some blocks => simp [headerLines, List.set]
/-- C9 amended: there is exactly one matching algorithm; it errors exactly on
malformed pattern syntax; host-name matching, alias matching, and template
matching (all inside `getHostByName`) propagate the match error to their
caller; but the staleness detector's dynamic-target check swallows the error
and silently skips the malformed pattern. -/
theorem c9_amended_matcher_propagation :
    (∀ p s, pathMatch p s = none ↔ validPattern p = false) ∧
    getHostByName 5 c9AliasConfig "x" false true false
        = some (Except.error "syntax error in pattern") ∧
    getHostByName 5 c9TemplateConfig "x" false true true
        = some (Except.error "syntax error in pattern") ∧
    needsARebuildForTarget c9AliasConfig "x" = false := by
  refine ⟨?_, rfl, rfl, rfl⟩
  intro p s
  unfold pathMatch validPattern
  cases parsePattern p.toList <;> simp
